import Mathlib

/-!
Verification development for the Cap recording pipeline
(`src/apps/desktop/src-tauri/src/audio.rs` and
`src/apps/desktop/src-tauri/src/recording.rs`).

The Rust code is shallowly embedded: pure computations become Lean
functions, stateful/async code becomes explicit state passing or
event-trace-producing functions, fallible or panicking code returns
`Option`/`Except`.  `std::time::Instant` values are modelled as `Nat`
nanosecond counts, byte buffers as `List Nat`, and the filesystem /
device environment as explicit record parameters.
-/

namespace Cap

/-! ## Synchronization resolver (audio.rs, lines 556-611)

`adjust_ffmpeg_commands_based_on_start_times` first waits until both
start-time slots are populated (`wait_for_start_times`), then computes
`duration_difference = |audio_start - video_start|`, converts it to
seconds and formats it with `format!("{:.3}", offset_seconds)` (three
decimal digits, i.e. millisecond precision), and finally `splice`s
`["-itsoffset", <formatted>]` at position 0 of exactly one command:
the video command when `audio_start > video_start`, the audio command
when `video_start > audio_start`, and neither when they are equal.

Instants are nanosecond counts (`Nat`); `Duration` subtraction
`a.duration_since(b)` is `Nat` subtraction of nanosecond counts.  The
`{:.3}` float formatting is modelled at millisecond resolution
(round-to-nearest of the nanosecond count, which agrees with the f64
formatting away from sub-microsecond ties). -/

/-- Left-pad the fractional millisecond part to three digits, as
`format!("{:.3}", _)` always prints exactly three decimals. -/
def pad3 (n : Nat) : String :=
  if n < 10 then "00" ++ toString n
  else if n < 100 then "0" ++ toString n
  else toString n

/-- Model of `format!("{:.3}", offset_seconds)` where `offset_seconds`
is the duration `nanos` converted to seconds: seconds and exactly three
decimal digits, rounding to the nearest millisecond. -/
def format_secs_3 (nanos : Nat) : String :=
  let millis := (nanos + 500000) / 1000000
  toString (millis / 1000) ++ "." ++ pad3 (millis % 1000)

/-- `adjust_ffmpeg_commands_based_on_start_times` (audio.rs 575-611),
after `wait_for_start_times` has delivered both instants.  Returns the
(audio command, video command) pair after the `splice(0..0, ...)`
adjustments. -/
def adjust_ffmpeg_commands_based_on_start_times
    (audio_start video_start : Nat)
    (ffmpeg_audio_command ffmpeg_video_command : List String) :
    List String × List String :=
  let duration_difference :=
    if video_start < audio_start then audio_start - video_start
    else video_start - audio_start
  let offset := format_secs_3 duration_difference
  if video_start < audio_start then
    -- audio started after video: offset the video start time
    (ffmpeg_audio_command, "-itsoffset" :: offset :: ffmpeg_video_command)
  else if audio_start < video_start then
    -- video started after audio: offset the audio start time
    ("-itsoffset" :: offset :: ffmpeg_audio_command, ffmpeg_video_command)
  else
    (ffmpeg_audio_command, ffmpeg_video_command)

/-! ## Audio input callback buffer sizes (audio.rs, lines 140-249)

Each `build_input_stream` callback converts the sample slice to bytes:
* `I8`: `data.iter().map(|&sample| sample as u8).collect()` — one byte
  per sample, infallible;
* `I16`: `vec![0; data.len() * 2]` then `LittleEndian::write_i16_into`;
* `I32`: `vec![0; data.len() * 2]` then `LittleEndian::write_i32_into`;
* `F32`: `vec![0; data.len() * 4]` then `LittleEndian::write_f32_into`.

The `byteorder` `write_*_into` functions panic unless the destination
length is exactly the sample width times the source length; a panicking
conversion is modelled as `none`. -/

inductive SampleFormat
  | i8
  | i16
  | i32
  | f32
deriving DecidableEq

/-- `LittleEndian::write_i16_into (src, dst)`: panics (`none`) unless
`dst.len() = 2 * src.len()`; otherwise yields the destination length. -/
def write_i16_into (srcLen dstLen : Nat) : Option Nat :=
  if dstLen = 2 * srcLen then some dstLen else none

/-- `LittleEndian::write_i32_into (src, dst)`: panics (`none`) unless
`dst.len() = 4 * src.len()`. -/
def write_i32_into (srcLen dstLen : Nat) : Option Nat :=
  if dstLen = 4 * srcLen then some dstLen else none

/-- `LittleEndian::write_f32_into (src, dst)`: panics (`none`) unless
`dst.len() = 4 * src.len()`. -/
def write_f32_into (srcLen dstLen : Nat) : Option Nat :=
  if dstLen = 4 * srcLen then some dstLen else none

/-- Byte-buffer length produced by the sample-to-byte conversion of the
input callback for each format branch, for an input slice of `n`
samples; `none` models a panic inside the callback. -/
def callback_bytes_len : SampleFormat → Nat → Option Nat
  | SampleFormat.i8, n => some n                 -- map/collect, one byte per sample
  | SampleFormat.i16, n => write_i16_into n (2 * n)  -- vec![0; data.len() * 2]
  | SampleFormat.i32, n => write_i32_into n (2 * n)  -- vec![0; data.len() * 2]
  | SampleFormat.f32, n => write_f32_into n (4 * n)  -- vec![0; data.len() * 4]

/-- The byte width per sample demanded by the `byteorder` contract for
each branch (1, 2, 4, 4). -/
def required_bytes_per_sample : SampleFormat → Nat
  | SampleFormat.i8 => 1
  | SampleFormat.i16 => 2
  | SampleFormat.i32 => 4
  | SampleFormat.f32 => 4

/-! ## Relay channel (audio.rs, lines 63-64 and 150, 177, 204, 231, 283)

`tokio::sync::mpsc::channel::<Vec<u8>>(2048)` is a bounded queue; the
producer side only ever calls `try_send`, which never waits: it either
enqueues the buffer (queue shorter than capacity) or returns an error
immediately, in which case the callback drops the data and logs
"Channel send error. Dropping data.". -/

/-- State of one bounded relay channel: its fixed capacity and the
queue of buffers offered but not yet received by the consumer. -/
structure BoundedChannel where
  capacity : Nat
  queue : List (List Nat)
deriving DecidableEq

/-- `Sender::try_send`: non-blocking offer.  Returns the new channel
state and `true` on success, or the unchanged state and `false` when
the channel is full (the caller then drops the buffer and logs a
warning). -/
def try_send (ch : BoundedChannel) (buf : List Nat) : BoundedChannel × Bool :=
  if ch.queue.length < ch.capacity then
    ({ ch with queue := ch.queue ++ [buf] }, true)
  else
    (ch, false)

/-- The capture callback's offers, folded over a sequence of buffers:
returns the final channel state, the number of accepted buffers and the
number of dropped buffers.  Every offer returns (no blocking). -/
def offer_all (ch : BoundedChannel) : List (List Nat) → BoundedChannel × Nat × Nat
  | [] => (ch, 0, 0)
  | b :: bs =>
    let step := try_send ch b
    let rest := offer_all step.1 bs
    (rest.1, (if step.2 then rest.2.1 + 1 else rest.2.1),
      (if step.2 then rest.2.2 else rest.2.2 + 1))

/-! ## Device enumeration (audio.rs, lines 508-530) -/

/-- A cpal input device as seen by `enumerate_audio_devices`:
`name` is `device.name()` (`Ok`/`Err` as `some`/`none`) and
`input_config_count` is `supported_input_configs()` with the number of
configs (`Err` as `none`). -/
structure AudioDevice where
  name : Option String
  input_config_count : Option Nat
deriving DecidableEq

/-- The cpal host: the default input device (if any) and the device
list returned by `host.devices()`. -/
structure AudioHost where
  default_input_device : Option AudioDevice
  devices : List AudioDevice

/-- `enumerate_audio_devices` (audio.rs 509-530).  `none` models the
panics of `.expect(...)` when there is no default input device or its
name is unavailable.  Devices whose `supported_input_configs()` fail or
report zero configs, or whose name is unavailable, are filtered out;
then every occurrence of the default name is removed and the default
name is inserted at position 0. -/
def enumerate_audio_devices (host : AudioHost) : Option (List String) := do
  let default_device ← host.default_input_device
  let default_device_name ← default_device.name
  let input_device_names := host.devices.filterMap (fun d =>
    match d.input_config_count with
    | some c => if 0 < c then d.name else none
    | none => none)
  let retained := input_device_names.filter (fun n => n ≠ default_device_name)
  some (default_device_name :: retained)

/-! ## Segment watcher / upload loop (recording.rs, lines 383-432, 447-460)

`start_upload_loop` keeps a `HashSet<String>` of watched segments and
loops: it reads the shutdown flag (breaking on the second pass that
observes it), reads the manifest (`load_segment_list`, skipping empty
lines), subtracts the watched set, spawns an upload task for every new
filename that exists on disk, inserts every new filename into the
watched set regardless, awaits all of this pass's tasks (`join_all`),
and sleeps.  After the loop it stores `true` into `uploading_finished`.

The loop is driven by a schedule: one `PassEnv` per loop iteration
giving the value `shutdown_flag.load` returns at the top of the pass,
the manifest lines read in that pass, and the set of filenames for
which `segment_path.is_file()` holds.  An exhausted schedule models a
loop that is still running.  `HashSet`s are modelled as duplicate-free
lists (iteration order fixed to first-occurrence order; none of the
proved properties depend on the order). -/

/-- The environment one iteration of the upload loop observes. -/
structure PassEnv where
  shutdown : Bool
  manifest : List String
  on_disk : List String
deriving DecidableEq

/-- `load_segment_list` (recording.rs 447-460): read the manifest lines
into a `HashSet`, skipping empty lines.  Reads are assumed to succeed
(I/O errors are not injected by the schedule). -/
def load_segment_list (lines : List String) : List String :=
  (lines.filter (fun l => l ≠ "")).dedup

/-- `current_segments` of one pass (recording.rs 401-405): the manifest
entries minus the watched set. -/
def pass_new_segments (watched : List String) (env : PassEnv) : List String :=
  (load_segment_list env.manifest).filter (fun f => f ∉ watched)

/-- The filenames for which this pass spawns an upload task
(recording.rs 407-419): new segments whose file exists on disk. -/
def pass_dispatched (watched : List String) (env : PassEnv) : List String :=
  (pass_new_segments watched env).filter (fun f => f ∈ env.on_disk)

/-- `start_upload_loop` (recording.rs 383-432) run over a schedule.
Returns the list of per-pass dispatched-upload batches, the final
watched set, and whether the loop broke out and stored `true` into
`uploading_finished` (false when the schedule ran out first). -/
def start_upload_loop :
    (watched : List String) → (is_final_loop : Bool) → (envs : List PassEnv) →
    List (List String) × List String × Bool
  | watched, _, [] => ([], watched, false)
  | watched, is_final_loop, env :: rest =>
    if env.shutdown && is_final_loop then
      -- break, then uploading_finished.store(true)
      ([], watched, true)
    else
      let is_final2 := env.shutdown || is_final_loop
      let d := pass_dispatched watched env
      let watched2 := watched ++ pass_new_segments watched env
      let tail := start_upload_loop watched2 is_final2 rest
      (d :: tail.1, tail.2)

/-! ### Event-trace view of the upload loop (for the shutdown-drain
temporal claims)

Within one pass all spawned tasks are awaited by `join_all` before the
pass ends, so each pass contributes its dispatch events followed by the
matching completion events; the `uploading_finished` store happens once,
after the loop breaks. -/

/-- Observable events of one upload loop: task dispatch, task
completion (success or failure), and the `uploading_finished` store. -/
inductive UploadEvent
  | dispatch (f : String)
  | completed (f : String)
  | flagSet
deriving DecidableEq

/-- Events of one executed pass: the dispatches, then (because of
`join_all`) the completions of exactly the dispatched tasks. -/
def pass_events (watched : List String) (env : PassEnv) : List UploadEvent :=
  (pass_dispatched watched env).map UploadEvent.dispatch
    ++ (pass_dispatched watched env).map UploadEvent.completed

/-- The ordered event trace of `start_upload_loop` over a schedule. -/
def upload_loop_trace :
    (watched : List String) → (is_final_loop : Bool) → (envs : List PassEnv) →
    List UploadEvent
  | _, _, [] => []
  | watched, is_final_loop, env :: rest =>
    if env.shutdown && is_final_loop then [UploadEvent.flagSet]
    else
      pass_events watched env
        ++ upload_loop_trace (watched ++ pass_new_segments watched env)
            (env.shutdown || is_final_loop) rest

/-- `stop_all_recordings`' wait loop (recording.rs 264-268) spins until
both `video_uploading_finished` and `audio_uploading_finished` read
true.  Having observed a prefix of each loop's trace, stop can return
only if each prefix already contains that loop's `flagSet` store. -/
def stop_can_return (audio_seen video_seen : List UploadEvent) : Bool :=
  decide (UploadEvent.flagSet ∈ audio_seen)
    && decide (UploadEvent.flagSet ∈ video_seen)

/-! ## Recording session coordinator: start (recording.rs, lines 57-239)

`start_dual_recording` checks the data directory, builds the
screenshot argument list (erroring on an unsupported OS), prepares the
audio recorder, stores the session state, and then — rather than
returning — awaits both upload loops with `tokio::try_join!`; only
after both loop futures complete does it reach `Ok(())`. -/

/-- Observable milestones of `start_dual_recording`. -/
inductive StartEvent
  | setupDone
  | uploadLoopFinished (kind : String)
  | returned
deriving DecidableEq

/-- The environment `start_dual_recording` runs in: the optional data
directory from the recording state, `std::env::consts::OS`, whether
`prepare_audio_recording` succeeds, and the schedules driving the two
upload loops. -/
structure StartEnv where
  data_dir : Option String
  os : String
  audio_setup_ok : Bool
  video_envs : List PassEnv
  audio_envs : List PassEnv

/-- `start_dual_recording` (recording.rs 58-239) as an event trace.
Directory cleanup is assumed to succeed (filesystem errors are not
injected); the fire-and-forget screenshot task does not influence the
trace.  `setupDone` marks the point where the session state has been
stored (lines 170-175); the function then awaits
`tokio::try_join!(screen_upload, audio_upload)` (line 229) and only
afterwards returns, so `returned` appears only when both loop
schedules let the loops finish. -/
def start_dual_recording (env : StartEnv) : Except String (List StartEvent) :=
  match env.data_dir with
  | none => Except.error "Data directory is not set in the recording state"
  | some _ =>
    if env.os = "macos" ∨ env.os = "windows" ∨ env.os = "linux" then
      if env.audio_setup_ok then
        let videoRun := start_upload_loop [] false env.video_envs
        let audioRun := start_upload_loop [] false env.audio_envs
        Except.ok ([StartEvent.setupDone]
          ++ (if videoRun.2.2 then [StartEvent.uploadLoopFinished "video"] else [])
          ++ (if audioRun.2.2 then [StartEvent.uploadLoopFinished "audio"] else [])
          ++ (if videoRun.2.2 && audioRun.2.2 then [StartEvent.returned] else []))
      else Except.error "audio recording setup failed"
    else Except.error "Unsupported OS"

/-! ## Stopping a recording (audio.rs, lines 447-489)

`stop_audio_recording` executes, in program order: take and shut down
the audio stdin pipe (errors discarded via `let _ =`), take and shut
down the video stdin pipe (likewise), store `true` into `should_stop`,
drop both channel senders, pause the cpal stream — returning early with
an error if there is no stream or `pause()` fails (the `?` operator) —
and finally kill the two ffmpeg processes (kill errors discarded). -/

/-- The fields of `AudioRecorder` that `stop_audio_recording` touches.
`ffmpeg_audio_stdin : Option (Option Unit)` models
`Option<Arc<Mutex<Option<ChildStdin>>>>`: outer `none` = field never
set, `some none` = stdin already taken, `some (some ())` = live pipe
handle. -/
structure RecorderState where
  ffmpeg_audio_stdin : Option (Option Unit)
  ffmpeg_video_stdin : Option (Option Unit)
  audio_channel_sender : Option Unit
  video_channel_sender : Option Unit
  stream : Option Unit
  ffmpeg_audio_process : Option Unit
  ffmpeg_video_process : Option Unit
  should_stop : Bool
deriving DecidableEq

/-- Which fallible calls fail during this execution of stop.  The
results of `shutdown()` and `kill()` are discarded by the source
(`let _ = ... .map_err(...)`), so those fields cannot influence the
trace; only `pause()` failing changes control flow. -/
structure StopEnv where
  audio_shutdown_fails : Bool
  video_shutdown_fails : Bool
  pause_fails : Bool
  audio_kill_fails : Bool
  video_kill_fails : Bool
deriving DecidableEq

/-- Cleanup actions attempted by `stop_audio_recording`, in the order
they are issued. -/
inductive StopEvent
  | closeAudioPipe
  | closeVideoPipe
  | setShouldStop
  | dropAudioSender
  | dropVideoSender
  | pauseStream
  | killAudioProcess
  | killVideoProcess
deriving DecidableEq

/-- audio.rs 448-453: the audio pipe write-half is shut down when the
`Arc` field is set and the guarded `Option` still holds the stdin. -/
def close_audio_events (s : RecorderState) : List StopEvent :=
  match s.ffmpeg_audio_stdin with
  | some (some _) => [StopEvent.closeAudioPipe]
  | _ => []

/-- audio.rs 455-460: likewise for the video pipe. -/
def close_video_events (s : RecorderState) : List StopEvent :=
  match s.ffmpeg_video_stdin with
  | some (some _) => [StopEvent.closeVideoPipe]
  | _ => []

/-- audio.rs 464-470: the channel senders are dropped when present. -/
def drop_sender_events (s : RecorderState) : List StopEvent :=
  (match s.audio_channel_sender with
    | some _ => [StopEvent.dropAudioSender]
    | none => [])
    ++ (match s.video_channel_sender with
    | some _ => [StopEvent.dropVideoSender]
    | none => [])

/-- audio.rs 472-477: `stream.pause()` is called whenever a stream
exists (even if it will fail). -/
def pause_events (s : RecorderState) : List StopEvent :=
  match s.stream with
  | some _ => [StopEvent.pauseStream]
  | none => []

/-- audio.rs 479-485: the kill steps run only when a stream existed and
`pause()` succeeded; each `kill()` is attempted for a present process
(its error is discarded). -/
def kill_events (s : RecorderState) (env : StopEnv) : List StopEvent :=
  match s.stream with
  | none => []
  | some _ =>
    if env.pause_fails then []
    else
      (match s.ffmpeg_audio_process with
        | some _ => [StopEvent.killAudioProcess]
        | none => [])
        ++ (match s.ffmpeg_video_process with
        | some _ => [StopEvent.killVideoProcess]
        | none => [])

/-- The ordered trace of cleanup actions of one `stop_audio_recording`
execution. -/
def stop_trace (s : RecorderState) (env : StopEnv) : List StopEvent :=
  close_audio_events s ++ close_video_events s
    ++ [StopEvent.setShouldStop]
    ++ drop_sender_events s ++ pause_events s ++ kill_events s env

/-- The recorder state after `stop_audio_recording`: both stdin options
taken, `should_stop` stored, senders dropped; every mutation happens
before the possible early return, so the final state is the same on
every path. -/
def stop_state (s : RecorderState) : RecorderState :=
  { s with
    ffmpeg_audio_stdin := s.ffmpeg_audio_stdin.map (fun _ => none)
    ffmpeg_video_stdin := s.ffmpeg_video_stdin.map (fun _ => none)
    audio_channel_sender := none
    video_channel_sender := none
    should_stop := true }

/-- The `Result<(), String>` of `stop_audio_recording`: an error when no
stream was started or `pause()` fails, `Ok(())` otherwise. -/
def stop_result (s : RecorderState) (env : StopEnv) : Except String Unit :=
  match s.stream with
  | none => Except.error "Recording was not started"
  | some _ =>
    if env.pause_fails then Except.error "Failed to pause stream"
    else Except.ok ()

/-- `stop_audio_recording` (audio.rs 447-489): the trace of attempted
cleanup actions, the final recorder state, and the returned result. -/
def stop_audio_recording (s : RecorderState) (env : StopEnv) :
    List StopEvent × RecorderState × Except String Unit :=
  (stop_trace s env, stop_state s, stop_result s env)

/-- Classifies the pipe-close events. -/
def isCloseEvent : StopEvent → Bool
  | StopEvent.closeAudioPipe => true
  | StopEvent.closeVideoPipe => true
  | _ => false

/-- Classifies the process-kill events. -/
def isKillEvent : StopEvent → Bool
  | StopEvent.killAudioProcess => true
  | StopEvent.killVideoProcess => true
  | _ => false

/-! ## Theorems -/

/-- C1: `adjust_ffmpeg_commands_based_on_start_times` applies an
`-itsoffset` prefix of magnitude `|audio_start - video_start|`
(formatted with millisecond precision) to exactly one of the two
encoder command vectors, never both, and applies no adjustment when the
two instants are equal; when video starts later than audio the offset
goes to the audio command (in particular audio at t=100ms and video at
t=180ms yields `-itsoffset 0.080` on the audio command and no change to
the video command), and symmetrically the video command is adjusted
when audio starts later. -/
theorem audio_sync_offset_applied_to_exactly_one_command
    (audio_start video_start : Nat) (ac vc : List String) :
    (audio_start = video_start →
      adjust_ffmpeg_commands_based_on_start_times audio_start video_start ac vc
        = (ac, vc)) ∧
    (video_start < audio_start →
      adjust_ffmpeg_commands_based_on_start_times audio_start video_start ac vc
        = (ac, "-itsoffset" :: format_secs_3 (audio_start - video_start) :: vc)) ∧
    (audio_start < video_start →
      adjust_ffmpeg_commands_based_on_start_times audio_start video_start ac vc
        = ("-itsoffset" :: format_secs_3 (video_start - audio_start) :: ac, vc)) ∧
    adjust_ffmpeg_commands_based_on_start_times 100000000 180000000 ac vc
      = ("-itsoffset" :: "0.080" :: ac, vc) := by
  refine ⟨fun h => ?_, fun h => ?_, fun h => ?_, ?_⟩
  · subst h
    unfold adjust_ffmpeg_commands_based_on_start_times
    split_ifs <;> first | rfl | omega
  · unfold adjust_ffmpeg_commands_based_on_start_times
    split_ifs <;> first | rfl | omega
  · unfold adjust_ffmpeg_commands_based_on_start_times
    split_ifs <;> first | rfl | omega
  · unfold adjust_ffmpeg_commands_based_on_start_times
    norm_num
    rfl

/-- Witness for C1 at concrete inputs: equal instants are unadjusted,
audio-later offsets the video command, video-later offsets the audio
command. -/
theorem audio_sync_offset_witness :
    adjust_ffmpeg_commands_based_on_start_times 5 5 ["a"] ["v"] = (["a"], ["v"]) ∧
    adjust_ffmpeg_commands_based_on_start_times 7 5 ["a"] ["v"]
      = (["a"], "-itsoffset" :: format_secs_3 2 :: ["v"]) ∧
    adjust_ffmpeg_commands_based_on_start_times 5 7 ["a"] ["v"]
      = ("-itsoffset" :: format_secs_3 2 :: ["a"], ["v"]) :=
  ⟨(audio_sync_offset_applied_to_exactly_one_command 5 5 ["a"] ["v"]).1 rfl,
   (audio_sync_offset_applied_to_exactly_one_command 7 5 ["a"] ["v"]).2.1 (by decide),
   (audio_sync_offset_applied_to_exactly_one_command 5 7 ["a"] ["v"]).2.2.1 (by decide)⟩

/-- C8: the claim that every sample-format branch sizes its destination
buffer as the byteorder functions require (1, 2, 4, 4 bytes per sample)
fails on the code: the `I32` branch allocates `data.len() * 2` bytes
(audio.rs line 201) while `write_i32_into` demands `4 * data.len()`, so
the callback panics on every non-empty `I32` input slice — evaluated
here at a one-sample slice; the `I8`, `I16` and `F32` branches are
correctly sized. -/
theorem i32_callback_buffer_too_small_panics :
    callback_bytes_len SampleFormat.i32 1 = none ∧
    required_bytes_per_sample SampleFormat.i32 * 1 = 4 ∧
    callback_bytes_len SampleFormat.i8 1
      = some (required_bytes_per_sample SampleFormat.i8 * 1) ∧
    callback_bytes_len SampleFormat.i16 1
      = some (required_bytes_per_sample SampleFormat.i16 * 1) ∧
    callback_bytes_len SampleFormat.f32 1
      = some (required_bytes_per_sample SampleFormat.f32 * 1) := by
  decide

/-- C10: `enumerate_audio_devices` returns a list whose first element
is the system default input device's name, and that name does not occur
again at any later position. -/
theorem enumerate_audio_devices_default_first_no_dup
    (host : AudioHost) (dev : AudioDevice) (dname : String)
    (h1 : host.default_input_device = some dev) (h2 : dev.name = some dname) :
    ∃ rest, enumerate_audio_devices host = some (dname :: rest) ∧ dname ∉ rest := by
  refine ⟨(host.devices.filterMap (fun d =>
    match d.input_config_count with
    | some c => if 0 < c then d.name else none
    | none => none)).filter (fun n => n ≠ dname), ?_, ?_⟩
  · simp [enumerate_audio_devices, h1, h2]
  · intro hmem
    have := List.mem_filter.mp hmem
    simp at this

/-- Witness for C10 at a concrete host with a duplicate listing of the
default device. -/
theorem enumerate_audio_devices_witness :
    ∃ rest,
      enumerate_audio_devices
        ⟨some ⟨some "Mic", some 1⟩,
          [⟨some "USB", some 2⟩, ⟨some "Mic", some 1⟩, ⟨some "Dead", none⟩]⟩
        = some ("Mic" :: rest) ∧ "Mic" ∉ rest :=
  enumerate_audio_devices_default_first_no_dup
    ⟨some ⟨some "Mic", some 1⟩,
      [⟨some "USB", some 2⟩, ⟨some "Mic", some 1⟩, ⟨some "Dead", none⟩]⟩
    ⟨some "Mic", some 1⟩ "Mic" rfl rfl

/-- `try_send` preserves the capacity and the queue-length bound. -/
theorem try_send_invariant (ch : BoundedChannel) (b : List Nat)
    (h : ch.queue.length ≤ ch.capacity) :
    (try_send ch b).1.capacity = ch.capacity ∧
      (try_send ch b).1.queue.length ≤ ch.capacity := by
  unfold try_send
  by_cases hlt : ch.queue.length < ch.capacity
  · rw [if_pos hlt]
    constructor
    · rfl
    · simp
      omega
  · rw [if_neg hlt]
    exact ⟨rfl, h⟩

/-- A full channel rejects the offer and is left unchanged. -/
theorem try_send_full (ch : BoundedChannel) (b : List Nat)
    (h : ch.capacity ≤ ch.queue.length) :
    try_send ch b = (ch, false) := by
  unfold try_send
  rw [if_neg (by omega)]

/-- The queue never exceeds the capacity across any offer sequence. -/
theorem offer_all_invariant :
    ∀ (bufs : List (List Nat)) (ch : BoundedChannel),
      ch.queue.length ≤ ch.capacity →
      (offer_all ch bufs).1.capacity = ch.capacity ∧
        (offer_all ch bufs).1.queue.length ≤ ch.capacity := by
  intro bufs
  induction bufs with
  | nil => exact fun ch h => ⟨rfl, h⟩
  | cons b bs ih =>
    intro ch h
    have hstep := try_send_invariant ch b h
    have hrec := ih (try_send ch b).1 (hstep.1 ▸ hstep.2)
    simp only [offer_all]
    exact ⟨hrec.1.trans hstep.1, hstep.1 ▸ hrec.2⟩

/-- Every offer returns: each buffer is either accepted or dropped. -/
theorem offer_all_counts :
    ∀ (bufs : List (List Nat)) (ch : BoundedChannel),
      (offer_all ch bufs).2.1 + (offer_all ch bufs).2.2 = bufs.length := by
  intro bufs
  induction bufs with
  | nil => intro ch; rfl
  | cons b bs ih =>
    intro ch
    have := ih (try_send ch b).1
    simp only [offer_all, List.length_cons]
    by_cases hs : (try_send ch b).2 <;> simp [hs] <;> omega

/-- Accepted offers are exactly the growth of the queue. -/
theorem offer_all_accepted :
    ∀ (bufs : List (List Nat)) (ch : BoundedChannel),
      ch.queue.length + (offer_all ch bufs).2.1
        = (offer_all ch bufs).1.queue.length := by
  intro bufs
  induction bufs with
  | nil => intro ch; rfl
  | cons b bs ih =>
    intro ch
    have hrec := ih (try_send ch b).1
    simp only [offer_all]
    by_cases hlt : ch.queue.length < ch.capacity
    · have h1 : (try_send ch b).1.queue.length = ch.queue.length + 1 := by
        unfold try_send
        rw [if_pos hlt]
        simp
      have h2 : (try_send ch b).2 = true := by
        unfold try_send
        rw [if_pos hlt]
      rw [h2]
      simp only [if_true]
      omega
    · have h1 : (try_send ch b).1 = ch := by
        unfold try_send
        rw [if_neg hlt]
      have h2 : (try_send ch b).2 = false := by
        unfold try_send
        rw [if_neg hlt]
      rw [h2]
      simp only [Bool.false_eq_true, if_false]
      rw [h1] at hrec ⊢
      omega

/-- C7: the relay channel's producer-side offer never blocks: over any
sequence of more than 2048 offered buffers, every offer returns
(accepted or dropped — a full channel leaves the state unchanged and
drops the buffer), the queue never exceeds the capacity 2048, at most
`2048 - |already queued|` new buffers are delivered to the consumer,
and at least one buffer is dropped. -/
theorem relay_channel_never_blocks_producer
    (q : List (List Nat)) (bufs : List (List Nat))
    (hq : q.length ≤ 2048) (hN : 2048 < bufs.length) :
    (offer_all ⟨2048, q⟩ bufs).1.queue.length ≤ 2048 ∧
    (offer_all ⟨2048, q⟩ bufs).2.1 + (offer_all ⟨2048, q⟩ bufs).2.2 = bufs.length ∧
    (offer_all ⟨2048, q⟩ bufs).2.1 ≤ 2048 - q.length ∧
    0 < (offer_all ⟨2048, q⟩ bufs).2.2 ∧
    (∀ (ch : BoundedChannel) (b : List Nat), ch.capacity ≤ ch.queue.length →
      try_send ch b = (ch, false)) := by
  have hinv : (offer_all ⟨2048, q⟩ bufs).1.queue.length ≤ 2048 :=
    (offer_all_invariant bufs ⟨2048, q⟩ hq).2
  have hcnt := offer_all_counts bufs ⟨2048, q⟩
  have hacc : q.length + (offer_all ⟨2048, q⟩ bufs).2.1
      = (offer_all ⟨2048, q⟩ bufs).1.queue.length :=
    offer_all_accepted bufs ⟨2048, q⟩
  refine ⟨hinv, hcnt, by omega, by omega, fun ch b h => try_send_full ch b h⟩

/-- Witness for C7: 2049 one-byte buffers offered to an empty channel
of capacity 2048. -/
theorem relay_channel_witness :
    (offer_all ⟨2048, []⟩ (List.replicate 2049 [7])).1.queue.length ≤ 2048 ∧
    (offer_all ⟨2048, []⟩ (List.replicate 2049 [7])).2.1
        + (offer_all ⟨2048, []⟩ (List.replicate 2049 [7])).2.2
      = (List.replicate 2049 [7]).length ∧
    (offer_all ⟨2048, []⟩ (List.replicate 2049 [7])).2.1
      ≤ 2048 - ([] : List (List Nat)).length ∧
    0 < (offer_all ⟨2048, []⟩ (List.replicate 2049 [7])).2.2 ∧
    (∀ (ch : BoundedChannel) (b : List Nat), ch.capacity ≤ ch.queue.length →
      try_send ch b = (ch, false)) :=
  relay_channel_never_blocks_producer [] (List.replicate 2049 [7])
    (by rw [List.length_nil]; omega)
    (by rw [List.length_replicate]; omega)

/-- A filename already in the watched set is never among a pass's new
segments. -/
theorem not_mem_pass_new (watched : List String) (env : PassEnv) (f : String)
    (hf : f ∈ watched) : f ∉ pass_new_segments watched env := by
  intro hmem
  have := List.mem_filter.mp hmem
  simp at this
  exact this.2 hf

/-- A pass's dispatched filenames are among its new segments. -/
theorem dispatched_subset_new (watched : List String) (env : PassEnv) (f : String)
    (hf : f ∈ pass_dispatched watched env) : f ∈ pass_new_segments watched env :=
  (List.mem_filter.mp hf).1

/-- Once a filename is in the watched set, no pass of the remaining run
dispatches it. -/
theorem no_redispatch_of_mem_watched :
    ∀ (envs : List PassEnv) (watched : List String) (b : Bool) (f : String),
      f ∈ watched →
      ∀ d ∈ (start_upload_loop watched b envs).1, f ∉ d := by
  intro envs
  induction envs with
  | nil =>
    intro w b f _ d hd
    simp [start_upload_loop] at hd
  | cons env rest ih =>
    intro w b f hf d hd
    by_cases hs : (env.shutdown && b) = true
    · simp [start_upload_loop, hs] at hd
    · simp only [start_upload_loop, hs, Bool.false_eq_true, if_false,
        List.mem_cons] at hd
      rcases hd with hd | hd
      · subst hd
        intro hmem
        exact not_mem_pass_new w env f hf (dispatched_subset_new w env f hmem)
      · exact ih (w ++ pass_new_segments w env) (env.shutdown || b) f
          (List.mem_append_left _ hf) d hd

/-- Each pass's dispatched batch is duplicate-free. -/
theorem dispatched_nodup (watched : List String) (env : PassEnv) :
    (pass_dispatched watched env).Nodup :=
  (((List.nodup_dedup _).filter _).filter _)

/-- Over a whole run, the dispatched batches are mutually disjoint and
individually duplicate-free: their concatenation has no duplicate. -/
theorem dispatch_flatten_nodup :
    ∀ (envs : List PassEnv) (watched : List String) (b : Bool),
      ((start_upload_loop watched b envs).1.flatten).Nodup := by
  intro envs
  induction envs with
  | nil =>
    intro w b
    simp [start_upload_loop]
  | cons env rest ih =>
    intro w b
    by_cases hs : (env.shutdown && b) = true
    · simp [start_upload_loop, hs]
    · simp only [start_upload_loop, hs, Bool.false_eq_true, if_false,
        List.flatten_cons]
      rw [List.nodup_append]
      refine ⟨dispatched_nodup w env, ih _ _, ?_⟩
      intro f hf hmem
      rcases List.mem_flatten.mp hmem with ⟨d, hd, hfd⟩
      have hfw : f ∈ w ++ pass_new_segments w env :=
        List.mem_append_right _ (dispatched_subset_new w env f hf)
      exact no_redispatch_of_mem_watched rest (w ++ pass_new_segments w env)
        (env.shutdown || b) f hfw d hd hfd

/-- C3: the seen set is monotone — once a filename is in the watched
set no pass of the rest of the run (including the final draining pass)
dispatches it; a pass whose manifest has no unseen non-empty line
dispatches nothing; and over the whole run each filename is dispatched
at most once. -/
theorem seen_segments_monotone_no_redispatch
    (envs : List PassEnv) (watched : List String) (b : Bool) (f : String)
    (env : PassEnv) :
    (f ∈ watched → ∀ d ∈ (start_upload_loop watched b envs).1, f ∉ d) ∧
    ((∀ l ∈ env.manifest, l ≠ "" → l ∈ watched) →
      pass_dispatched watched env = []) ∧
    ((start_upload_loop watched b envs).1.flatten.count f ≤ 1) := by
  refine ⟨fun hf => no_redispatch_of_mem_watched envs watched b f hf, fun hall => ?_, ?_⟩
  · have hnew : pass_new_segments watched env = [] := by
      rw [pass_new_segments, List.filter_eq_nil_iff]
      intro a ha
      have hmem := List.mem_filter.mp (List.mem_dedup.mp ha)
      have ha2 : a ≠ "" := by simpa using hmem.2
      simpa using hall a hmem.1 ha2
    rw [pass_dispatched, hnew]
    rfl
  · exact List.nodup_iff_count_le_one.mp (dispatch_flatten_nodup envs watched b) f

/-- Witness for C3: a run over one pass whose manifest repeats a seen
segment `a` and adds a fresh one `b`; the seen segment is not in the
dispatched batch, an all-seen pass dispatches nothing, and the count
bound holds. -/
theorem seen_segments_witness :
    "a" ∉ ["b"] ∧
    pass_dispatched ["a"] ⟨false, ["a"], ["a"]⟩ = [] ∧
    ((start_upload_loop ["a"] false [⟨false, ["a", "b"], ["b"]⟩]).1.flatten.count "a" ≤ 1) :=
  ⟨(seen_segments_monotone_no_redispatch [⟨false, ["a", "b"], ["b"]⟩] ["a"] false "a"
        ⟨false, ["a"], ["a"]⟩).1 (by decide) ["b"] (by decide),
   (seen_segments_monotone_no_redispatch [⟨false, ["a", "b"], ["b"]⟩] ["a"] false "a"
        ⟨false, ["a"], ["a"]⟩).2.1 (by decide),
   (seen_segments_monotone_no_redispatch [⟨false, ["a", "b"], ["b"]⟩] ["a"] false "a"
        ⟨false, ["a"], ["a"]⟩).2.2⟩

/-- C9: a manifest filename first observed at a pass where its file
does not yet exist on disk is still recorded as new (hence inserted
into the watched set) during that pass, and no pass of the run — that
one or any later one — dispatches an upload for it, even if the file
appears on disk in later passes. -/
theorem missing_file_segment_marked_seen_never_uploaded
    (watched : List String) (b : Bool) (env : PassEnv) (envs : List PassEnv)
    (f : String)
    (h1 : f ∈ env.manifest) (h2 : f ≠ "") (h3 : f ∉ watched)
    (h4 : f ∉ env.on_disk) (h5 : (env.shutdown && b) = false) :
    f ∈ pass_new_segments watched env ∧
    ∀ d ∈ (start_upload_loop watched b (env :: envs)).1, f ∉ d := by
  have hnew : f ∈ pass_new_segments watched env := by
    rw [pass_new_segments]
    refine List.mem_filter.mpr ⟨List.mem_dedup.mpr (List.mem_filter.mpr ⟨h1, ?_⟩), ?_⟩
    · simpa using h2
    · simpa using h3
  refine ⟨hnew, ?_⟩
  intro d hd
  simp only [start_upload_loop, h5, Bool.false_eq_true, if_false,
    List.mem_cons] at hd
  rcases hd with hd | hd
  · subst hd
    intro hmem
    have : f ∈ env.on_disk := by simpa using (List.mem_filter.mp hmem).2
    exact h4 this
  · exact no_redispatch_of_mem_watched envs (watched ++ pass_new_segments watched env)
      (env.shutdown || b) f (List.mem_append_right _ hnew) d hd

/-- Witness for C9: `seg1.ts` is listed before its file exists; it is
recorded as new in that pass and no pass dispatches it, not even the
later one where the file has appeared. -/
theorem missing_file_witness :
    "seg1.ts" ∈ pass_new_segments [] ⟨false, ["seg1.ts"], []⟩ ∧
    "seg1.ts" ∉ ([] : List String) :=
  ⟨(missing_file_segment_marked_seen_never_uploaded [] false ⟨false, ["seg1.ts"], []⟩
      [⟨false, ["seg1.ts"], ["seg1.ts"]⟩] "seg1.ts"
      (by decide) (by decide) (by decide) (by decide) rfl).1,
   (missing_file_segment_marked_seen_never_uploaded [] false ⟨false, ["seg1.ts"], []⟩
      [⟨false, ["seg1.ts"], ["seg1.ts"]⟩] "seg1.ts"
      (by decide) (by decide) (by decide) (by decide) rfl).2 [] (by decide)⟩

/-- `flagSet` never occurs among a pass's dispatch/completion events. -/
theorem flagSet_not_mem_pass_events (watched : List String) (env : PassEnv) :
    UploadEvent.flagSet ∉ pass_events watched env := by
  intro h
  rcases List.mem_append.mp h with h | h <;>
    · rcases List.mem_map.mp h with ⟨f, _, hf⟩
      cases hf

/-- In a pass's events, every dispatched filename also has a completion
event (the pass `join_all`s its own tasks). -/
theorem pass_events_dispatch_completed (watched : List String) (env : PassEnv)
    (f : String) (h : UploadEvent.dispatch f ∈ pass_events watched env) :
    UploadEvent.completed f ∈ pass_events watched env := by
  rcases List.mem_append.mp h with h | h
  · rcases List.mem_map.mp h with ⟨g, hg, hgf⟩
    injection hgf with hgf2
    subst hgf2
    exact List.mem_append_right _ (List.mem_map.mpr ⟨g, hg, rfl⟩)
  · rcases List.mem_map.mp h with ⟨g, _, hgf⟩
    cases hgf

/-- If the upload loop's trace contains the `uploading_finished` store,
the store is the very last event and every dispatched task has a
completion event before it. -/
theorem trace_flag_last :
    ∀ (envs : List PassEnv) (watched : List String) (b : Bool),
      UploadEvent.flagSet ∈ upload_loop_trace watched b envs →
      ∃ t, upload_loop_trace watched b envs = t ++ [UploadEvent.flagSet] ∧
        UploadEvent.flagSet ∉ t ∧
        ∀ f, UploadEvent.dispatch f ∈ t → UploadEvent.completed f ∈ t := by
  intro envs
  induction envs with
  | nil =>
    intro w b h
    simp [upload_loop_trace] at h
  | cons env rest ih =>
    intro w b h
    by_cases hs : (env.shutdown && b) = true
    · refine ⟨[], ?_, by simp, by simp⟩
      simp [upload_loop_trace, hs]
    · simp only [upload_loop_trace, hs, Bool.false_eq_true, if_false] at h ⊢
      have hrest : UploadEvent.flagSet ∈
          upload_loop_trace (w ++ pass_new_segments w env) (env.shutdown || b) rest := by
        rcases List.mem_append.mp h with h | h
        · exact absurd h (flagSet_not_mem_pass_events w env)
        · exact h
      rcases ih (w ++ pass_new_segments w env) (env.shutdown || b) hrest
        with ⟨t, ht, hnt, hdc⟩
      refine ⟨pass_events w env ++ t, ?_, ?_, ?_⟩
      · rw [ht, List.append_assoc]
      · intro hmem
        rcases List.mem_append.mp hmem with hmem | hmem
        · exact flagSet_not_mem_pass_events w env hmem
        · exact hnt hmem
      · intro f hf
        rcases List.mem_append.mp hf with hf | hf
        · exact List.mem_append_left _ (pass_events_dispatch_completed w env f hf)
        · exact List.mem_append_right _ (hdc f hf)

/-- If a prefix of the loop's trace contains the flag store, the prefix
is the whole trace. -/
theorem take_eq_trace_of_flag_mem (envs : List PassEnv) (watched : List String)
    (b : Bool) (k : Nat)
    (h : UploadEvent.flagSet ∈ (upload_loop_trace watched b envs).take k) :
    (upload_loop_trace watched b envs).take k = upload_loop_trace watched b envs := by
  have hmem : UploadEvent.flagSet ∈ upload_loop_trace watched b envs :=
    List.take_subset k _ h
  rcases trace_flag_last envs watched b hmem with ⟨t, ht, hnt, _⟩
  by_cases hk : k ≤ t.length
  · exfalso
    rw [ht, List.take_append_eq_append_take,
      Nat.sub_eq_zero_of_le hk, List.take_zero, List.append_nil] at h
    exact hnt (List.take_subset k t h)
  · apply List.take_of_length_le
    rw [ht]
    simp
    omega

/-- C6: whenever `stop_all_recordings`' wait loop can return — i.e. the
observed prefixes of both streams' traces contain their
`uploading_finished` stores — every upload task dispatched in either
observed prefix has already completed there; in particular an upload in
flight when stop is called is completed before stop returns, and each
stream's flag store happens only after all of that stream's dispatched
uploads completed. -/
theorem stop_waits_for_inflight_uploads
    (audio_envs video_envs : List PassEnv) (kA kV : Nat)
    (h : stop_can_return ((upload_loop_trace [] false audio_envs).take kA)
      ((upload_loop_trace [] false video_envs).take kV) = true) :
    (∀ f, UploadEvent.dispatch f ∈ (upload_loop_trace [] false audio_envs).take kA →
      UploadEvent.completed f ∈ (upload_loop_trace [] false audio_envs).take kA) ∧
    (∀ f, UploadEvent.dispatch f ∈ (upload_loop_trace [] false video_envs).take kV →
      UploadEvent.completed f ∈ (upload_loop_trace [] false video_envs).take kV) := by
  rw [stop_can_return, Bool.and_eq_true, decide_eq_true_eq, decide_eq_true_eq] at h
  constructor
  · intro f hf
    have htake := take_eq_trace_of_flag_mem audio_envs [] false kA h.1
    rw [htake] at hf ⊢
    have hmem : UploadEvent.flagSet ∈ upload_loop_trace [] false audio_envs :=
      htake ▸ h.1
    rcases trace_flag_last audio_envs [] false hmem with ⟨t, ht, _, hdc⟩
    rw [ht] at hf ⊢
    rcases List.mem_append.mp hf with hf | hf
    · exact List.mem_append_left _ (hdc f hf)
    · simp at hf
  · intro f hf
    have htake := take_eq_trace_of_flag_mem video_envs [] false kV h.2
    rw [htake] at hf ⊢
    have hmem : UploadEvent.flagSet ∈ upload_loop_trace [] false video_envs :=
      htake ▸ h.2
    rcases trace_flag_last video_envs [] false hmem with ⟨t, ht, _, hdc⟩
    rw [ht] at hf ⊢
    rcases List.mem_append.mp hf with hf | hf
    · exact List.mem_append_left _ (hdc f hf)
    · simp at hf

/-- Witness for C6: a schedule where `a.ts` is dispatched on the first
pass and the shutdown flag then drains the loop; once stop can return,
the completion of `a.ts` is in the observed audio prefix. -/
theorem stop_waits_witness :
    UploadEvent.completed "a.ts" ∈
      (upload_loop_trace [] false
        [⟨false, ["a.ts"], ["a.ts"]⟩, ⟨true, [], []⟩, ⟨true, [], []⟩]).take 3 :=
  (stop_waits_for_inflight_uploads
      [⟨false, ["a.ts"], ["a.ts"]⟩, ⟨true, [], []⟩, ⟨true, [], []⟩]
      [⟨true, [], []⟩, ⟨true, [], []⟩] 3 1
      (by decide)).1 "a.ts" (by decide)

/-- C2 counterexample: with the data directory set and setup
succeeding, but both upload loops still mid-run (shutdown flag unset
after one pass), `start_dual_recording` has completed setup yet has NOT
returned — refuting the claim that start returns to its caller as soon
as setup completes, leaving the upload loops running in the
background.  (`tokio::try_join!` at recording.rs line 229 awaits both
loop futures before the function can reach `Ok(())`.) -/
theorem start_awaits_upload_loops_counterexample :
    start_dual_recording
      ⟨some "/data", "macos", true,
        [⟨false, [], []⟩], [⟨false, [], []⟩]⟩
      = Except.ok [StartEvent.setupDone] ∧
    StartEvent.returned ∉ [StartEvent.setupDone] := by
  constructor
  · rfl
  · decide

/-- C2 amended: whenever `start_dual_recording` does return
successfully, both upload loops have already terminated — the trace is
exactly setup completion, then both loops finishing, then the return.
Start's return waits for the upload loops instead of leaving them
running in the background. -/
theorem start_returns_only_after_upload_loops
    (env : StartEnv) (tr : List StartEvent)
    (h : start_dual_recording env = Except.ok tr)
    (hr : StartEvent.returned ∈ tr) :
    tr = [StartEvent.setupDone, StartEvent.uploadLoopFinished "video",
      StartEvent.uploadLoopFinished "audio", StartEvent.returned] := by
  unfold start_dual_recording at h
  rcases henvd : env.data_dir with _ | dir
  · rw [henvd] at h
    cases h
  · rw [henvd] at h
    by_cases hos : (env.os = "macos" ∨ env.os = "windows" ∨ env.os = "linux")
    · rw [if_pos hos] at h
      by_cases hsetup : env.audio_setup_ok
      · rw [if_pos hsetup] at h
        by_cases hv : (start_upload_loop [] false env.video_envs).2.2 <;>
          by_cases ha : (start_upload_loop [] false env.audio_envs).2.2 <;>
            simp only [hv, ha, Bool.and_self, Bool.and_false, Bool.false_and,
              Bool.and_true, Bool.true_and, if_true, if_false,
              Bool.false_eq_true, Except.ok.injEq] at h <;>
          subst h
        · rfl
        all_goals simp at hr
      · rw [if_neg hsetup] at h
        cases h
    · rw [if_neg hos] at h
      cases h

/-- Witness for C2's amended theorem: schedules on which both loops
drain immediately; start returns and the trace shows both loops
finished first. -/
theorem start_returns_witness :
    [StartEvent.setupDone, StartEvent.uploadLoopFinished "video",
        StartEvent.uploadLoopFinished "audio", StartEvent.returned]
      = [StartEvent.setupDone, StartEvent.uploadLoopFinished "video",
        StartEvent.uploadLoopFinished "audio", StartEvent.returned] :=
  start_returns_only_after_upload_loops
    ⟨some "/data", "macos", true,
      [⟨true, [], []⟩, ⟨true, [], []⟩], [⟨true, [], []⟩, ⟨true, [], []⟩]⟩
    [StartEvent.setupDone, StartEvent.uploadLoopFinished "video",
      StartEvent.uploadLoopFinished "audio", StartEvent.returned]
    rfl (by decide)

/-- C4 counterexample: a fully live recorder whose `stream.pause()`
fails.  `stop_audio_recording` flips the flag and closes both pipes,
but the `?` operator on `pause()` (audio.rs line 473) propagates the
error before the kill steps, so neither process kill is attempted —
refuting the claim that stop attempts every cleanup step regardless of
an intermediate failure. -/
theorem stop_pause_failure_skips_kills_counterexample :
    (stop_audio_recording
        ⟨some (some ()), some (some ()), some (), some (), some (),
          some (), some (), false⟩
        ⟨false, false, true, false, false⟩).1
      = [StopEvent.closeAudioPipe, StopEvent.closeVideoPipe,
        StopEvent.setShouldStop, StopEvent.dropAudioSender,
        StopEvent.dropVideoSender, StopEvent.pauseStream] ∧
    (stop_audio_recording
        ⟨some (some ()), some (some ()), some (), some (), some (),
          some (), some (), false⟩
        ⟨false, false, true, false, false⟩).2.2
      = Except.error "Failed to pause stream" := by
  constructor <;> rfl

/-- The part of the stop trace before the kill steps. -/
def stop_head_events (s : RecorderState) : List StopEvent :=
  close_audio_events s ++ close_video_events s ++ [StopEvent.setShouldStop]
    ++ drop_sender_events s ++ pause_events s

/-- The stop trace is the pre-kill part followed by the kill steps. -/
theorem stop_trace_decomp (s : RecorderState) (env : StopEnv) :
    (stop_audio_recording s env).1 = stop_head_events s ++ kill_events s env := by
  simp [stop_audio_recording, stop_trace, stop_head_events, List.append_assoc]

/-- The only event the audio pipe-close block can emit. -/
theorem close_audio_events_subset (s : RecorderState) :
    ∀ e ∈ close_audio_events s, e = StopEvent.closeAudioPipe := by
  unfold close_audio_events
  rcases hx : s.ffmpeg_audio_stdin with _ | (_ | _) <;> simp

/-- The only event the video pipe-close block can emit. -/
theorem close_video_events_subset (s : RecorderState) :
    ∀ e ∈ close_video_events s, e = StopEvent.closeVideoPipe := by
  unfold close_video_events
  rcases hx : s.ffmpeg_video_stdin with _ | (_ | _) <;> simp

/-- The only events the sender-drop block can emit. -/
theorem drop_sender_events_subset (s : RecorderState) :
    ∀ e ∈ drop_sender_events s,
      e = StopEvent.dropAudioSender ∨ e = StopEvent.dropVideoSender := by
  unfold drop_sender_events
  rcases hx : s.audio_channel_sender with _ | _ <;>
    rcases hy : s.video_channel_sender with _ | _ <;> simp

/-- The only event the pause block can emit. -/
theorem pause_events_subset (s : RecorderState) :
    ∀ e ∈ pause_events s, e = StopEvent.pauseStream := by
  unfold pause_events
  rcases hx : s.stream with _ | _ <;> simp

/-- The only events the kill block can emit. -/
theorem kill_events_subset (s : RecorderState) (env : StopEnv) :
    ∀ e ∈ kill_events s env,
      e = StopEvent.killAudioProcess ∨ e = StopEvent.killVideoProcess := by
  unfold kill_events
  rcases hx : s.stream with _ | _
  · simp
  · by_cases hp : env.pause_fails
    · rw [if_pos hp]
      simp
    · rw [if_neg hp]
      rcases ha : s.ffmpeg_audio_process with _ | _ <;>
        rcases hv : s.ffmpeg_video_process with _ | _ <;> simp

/-- No kill event occurs before the kill steps. -/
theorem stop_head_events_no_kill (s : RecorderState) :
    ∀ e ∈ stop_head_events s, isKillEvent e = false := by
  intro e he
  simp only [stop_head_events, List.mem_append, List.mem_singleton] at he
  rcases he with ((((he | he) | he) | he) | he)
  · rw [close_audio_events_subset s e he]
    rfl
  · rw [close_video_events_subset s e he]
    rfl
  · rw [he]
    rfl
  · rcases drop_sender_events_subset s e he with he | he <;> rw [he] <;> rfl
  · rw [pause_events_subset s e he]
    rfl

/-- No close event occurs among the kill steps. -/
theorem kill_events_no_close (s : RecorderState) (env : StopEnv) :
    ∀ e ∈ kill_events s env, isCloseEvent e = false := by
  intro e he
  rcases kill_events_subset s env e he with he | he <;> rw [he] <;> rfl

/-- C4 amended: stop always flips the shutdown flag and always attempts
both pipe-close steps, tolerating pipe shutdown errors (their results
are discarded); when the capture stream pauses successfully the kill
steps are then attempted for both present processes regardless of
earlier pipe errors — but if the stream is absent or fails to pause,
stop returns early and the kill steps are not attempted. -/
theorem stop_best_effort_cleanup_amended (s : RecorderState) (env : StopEnv) :
    ((stop_audio_recording s env).2.1).should_stop = true ∧
    (s.ffmpeg_audio_stdin = some (some ()) →
      StopEvent.closeAudioPipe ∈ (stop_audio_recording s env).1) ∧
    (s.ffmpeg_video_stdin = some (some ()) →
      StopEvent.closeVideoPipe ∈ (stop_audio_recording s env).1) ∧
    (s.stream = some () → env.pause_fails = false →
      (s.ffmpeg_audio_process = some () →
        StopEvent.killAudioProcess ∈ (stop_audio_recording s env).1) ∧
      (s.ffmpeg_video_process = some () →
        StopEvent.killVideoProcess ∈ (stop_audio_recording s env).1)) ∧
    (env.pause_fails = true ∨ s.stream = none →
      StopEvent.killAudioProcess ∉ (stop_audio_recording s env).1 ∧
      StopEvent.killVideoProcess ∉ (stop_audio_recording s env).1) := by
  refine ⟨rfl, ?_, ?_, ?_, ?_⟩
  · intro h
    simp [stop_audio_recording, stop_trace, close_audio_events, h]
  · intro h
    simp [stop_audio_recording, stop_trace, close_video_events, h]
  · intro hstream hpause
    constructor <;> intro hproc <;>
      simp [stop_audio_recording, stop_trace, kill_events, hstream, hpause, hproc]
  · intro h
    have hk : kill_events s env = [] := by
      rcases h with h | h
      · unfold kill_events
        rcases hs : s.stream with _ | u
        · rfl
        · rw [if_pos h]
      · unfold kill_events
        rw [h]
    constructor <;>
      · intro hmem
        rw [stop_trace_decomp, hk, List.append_nil] at hmem
        have := stop_head_events_no_kill s _ hmem
        simp [isKillEvent] at this

/-- Witness for C4's amended theorem: a fully live recorder with a
successful pause; the flag is flipped, both closes occur, and both
kills occur. -/
theorem stop_best_effort_witness :
    StopEvent.killAudioProcess ∈
      (stop_audio_recording
        ⟨some (some ()), some (some ()), some (), some (), some (),
          some (), some (), false⟩
        ⟨true, true, false, false, false⟩).1 :=
  ((stop_best_effort_cleanup_amended
      ⟨some (some ()), some (some ()), some (), some (), some (),
        some (), some (), false⟩
      ⟨true, true, false, false, false⟩).2.2.2.1 rfl rfl).1 rfl

/-- C5: in every execution of `stop_audio_recording`, every pipe-close
attempt occurs strictly before every process-kill attempt: a kill is
never issued at an earlier trace position than a close. -/
theorem stop_closes_pipes_before_kills
    (s : RecorderState) (env : StopEnv) (i j : Nat) (ei ej : StopEvent)
    (hi : (stop_audio_recording s env).1[i]? = some ei)
    (hki : isKillEvent ei = true)
    (hj : (stop_audio_recording s env).1[j]? = some ej)
    (hcj : isCloseEvent ej = true) :
    j < i := by
  rw [stop_trace_decomp] at hi hj
  have hiA : (stop_head_events s).length ≤ i := by
    by_contra hlt
    push_neg at hlt
    rw [List.getElem?_append_left hlt] at hi
    have hmem : ei ∈ stop_head_events s := by
      rcases List.getElem?_eq_some.mp hi with ⟨hbound, hget⟩
      exact hget ▸ List.getElem_mem hbound
    rw [stop_head_events_no_kill s ei hmem] at hki
    cases hki
  have hjA : j < (stop_head_events s).length := by
    by_contra hge
    push_neg at hge
    rw [List.getElem?_append_right hge] at hj
    have hmem : ej ∈ kill_events s env := by
      rcases List.getElem?_eq_some.mp hj with ⟨hbound, hget⟩
      exact hget ▸ List.getElem_mem hbound
    rw [kill_events_no_close s env ej hmem] at hcj
    cases hcj
  omega

/-- Witness for C5: the fully live recorder with a successful pause;
the first kill (index 6) comes after the first close (index 0). -/
theorem stop_order_witness : (0 : Nat) < 6 :=
  stop_closes_pipes_before_kills
    ⟨some (some ()), some (some ()), some (), some (), some (),
      some (), some (), false⟩
    ⟨false, false, false, false, false⟩
    6 0 StopEvent.killAudioProcess StopEvent.closeAudioPipe
    rfl rfl rfl rfl

end Cap
